import Mathlib

/-!
Shallow embedding of the time-series aggregation logic of the
oemanagergui-webapp repository: the charts view mixin and the PASOE
stats view mixin (bounded per-key histories, gauge series, delta-rate
series, interval inference, scope reset), together with theorems about
the behavioural contracts of that logic.
-/

namespace OeManagerGui

/-! ## PASOE stats view data model

The stats poller builds one data point per tick from the fetched
SessionManager metrics object plus a few aggregates it computes itself
(total memory, session-state counts, stopping-agent count).  Each raw
metric read in the source is a nullish-coalescing chain such as
metrics?.requests ?? metrics?.Requests ?? 0; the resolved lookup before
the final ?? 0 is modelled as a single Option Int field. -/

structure RawMetrics where
  concurrentConnectedClients : Option Int
  maxConcurrentClients : Option Int
  requests : Option Int
  numReserveABLSessionTimeouts : Option Int
  numReserveABLSessionWaits : Option Int
  reads : Option Int
  readErrors : Option Int
  writes : Option Int
  writeErrors : Option Int
deriving DecidableEq, Repr

/-- One polling tick of the PASOE stats view: the ingestion timestamp,
the aggregates computed by the surrounding fetch code, and the raw
SessionManager metrics object. -/
structure PasoeSample where
  time : Int
  totalMemory : Int
  idleSessions : Int
  busySessions : Int
  stoppingAgents : Int
  metrics : RawMetrics
deriving DecidableEq, Repr

/-- The dataPoint object pushed onto this.pasoeStatsHistory in
loadPasoeStatsData (src/unnamed/part_004 lines 1091-1112).  Every field
is a concrete integer; absent raw metrics are coerced by ?? 0. -/
structure PasoePoint where
  time : Int
  memoryUsed : Int
  currConnections : Int
  maxConnections : Int
  requests : Int
  timeouts : Int
  waits : Int
  reads : Int
  readErrors : Int
  writes : Int
  writeErrors : Int
  idleSessions : Int
  busySessions : Int
  stoppingAgents : Int
deriving DecidableEq, Repr

/-- Construction of the dataPoint literal (part_004 lines 1091-1112):
each metrics?.field ?? metrics?.Field ?? 0 chain becomes getD 0 of the
resolved Option value. -/
def mkDataPoint (s : PasoeSample) : PasoePoint :=
  { time := s.time
    memoryUsed := s.totalMemory
    currConnections := s.metrics.concurrentConnectedClients.getD 0
    maxConnections := s.metrics.maxConcurrentClients.getD 0
    requests := s.metrics.requests.getD 0
    timeouts := s.metrics.numReserveABLSessionTimeouts.getD 0
    waits := s.metrics.numReserveABLSessionWaits.getD 0
    reads := s.metrics.reads.getD 0
    readErrors := s.metrics.readErrors.getD 0
    writes := s.metrics.writes.getD 0
    writeErrors := s.metrics.writeErrors.getD 0
    idleSessions := s.idleSessions
    busySessions := s.busySessions
    stoppingAgents := s.stoppingAgents }

/-! ## Bounded history push

Both views append with history.push(point) and then evict the oldest
entry with history.shift() when the length exceeds the capacity
(part_004 lines 452-455 with capacity 200, lines 1123-1126 with
capacity 500). -/

/-- history.push(p); if (history.length > cap) history.shift();
the pushed list is history ++ [p] and shift drops its head. -/
def boundedPush (cap : Nat) (history : List α) (p : α) : List α :=
  if cap < (history ++ [p]).length then (history ++ [p]).tail
  else history ++ [p]

/-- Capacity of each charts-view per-session history (part_004 line 453). -/
def chartsCapacity : Nat := 200

/-- Capacity of the PASOE stats history (part_004 line 1124). -/
def pasoeStatsCapacity : Nat := 500

/-- One ingest step of the PASOE stats history (part_004 lines 1121-1126). -/
def ingestPasoeSample (history : List PasoePoint) (s : PasoeSample) : List PasoePoint :=
  boundedPush pasoeStatsCapacity history (mkDataPoint s)

/-- The PASOE stats history produced by a sequence of polls starting
from the empty history. -/
def pasoeHistoryAfter (samples : List PasoeSample) : List PasoePoint :=
  samples.foldl ingestPasoeSample []

/-! ## Delta-rate series -/

/-- One emitted rate point:  \x7b x: timestamp, y: value \x7d. -/
structure RatePoint where
  x : Int
  y : Int
deriving DecidableEq, Repr

/-- The branch of calculateDeltas for indices i larger than 0: the point for
each element d with predecessor prev is  \x7b x: d.time, y: Math.max(0, delta) \x7d
(part_004 lines 1264-1269). -/
def deltasTail (f : PasoePoint → Int) : PasoePoint → List PasoePoint → List RatePoint
  | _, [] => []
  | prev, d :: rest => ⟨d.time, max 0 (f d - f prev)⟩ :: deltasTail f d rest

/-- calculateDeltas (part_004 lines 1260-1270): data.map over indices,
index 0 yields value 0 at the same timestamp, later indices yield the
clamped difference of the selected field between the point and its
predecessor.  The field selector f stands for the string field access
d[field]; stored points always carry every field, so d[field] ?? 0 is
the plain field read. -/
def calculateDeltas (f : PasoePoint → Int) : List PasoePoint → List RatePoint
  | [] => []
  | d :: rest => ⟨d.time, 0⟩ :: deltasTail f d rest

/-! ### Basic lemmas about calculateDeltas -/

theorem deltasTail_length (f : PasoePoint → Int) (prev : PasoePoint)
    (l : List PasoePoint) : (deltasTail f prev l).length = l.length := by
  induction l generalizing prev with
  | nil => rfl
  | cons d rest ih => simp [deltasTail, ih]

theorem calculateDeltas_length (f : PasoePoint → Int) (data : List PasoePoint) :
    (calculateDeltas f data).length = data.length := by
  cases data with
  | nil => rfl
  | cons d rest => simp [calculateDeltas, deltasTail_length]

theorem deltasTail_get?_x (f : PasoePoint → Int) (prev : PasoePoint)
    (l : List PasoePoint) (i : Nat) :
    ((deltasTail f prev l).get? i).map RatePoint.x
      = (l.get? i).map PasoePoint.time := by
  induction l generalizing prev i with
  | nil => rfl
  | cons d rest ih =>
    cases i with
    | zero => rfl
    | succ j => simpa [deltasTail] using ih d j

theorem calculateDeltas_get?_x (f : PasoePoint → Int) (data : List PasoePoint)
    (i : Nat) :
    ((calculateDeltas f data).get? i).map RatePoint.x
      = (data.get? i).map PasoePoint.time := by
  cases data with
  | nil => rfl
  | cons d rest =>
    cases i with
    | zero => rfl
    | succ j => simpa [calculateDeltas] using deltasTail_get?_x f d rest j

theorem deltasTail_get?_value (f : PasoePoint → Int) :
    ∀ (l : List PasoePoint) (prev : PasoePoint) (i : Nat) (dp d : PasoePoint),
      (prev :: l).get? i = some dp → l.get? i = some d →
      (deltasTail f prev l).get? i = some ⟨d.time, max 0 (f d - f dp)⟩ := by
  intro l
  induction l with
  | nil =>
    intro prev i dp d _ hd
    simp at hd
  | cons e rest ih =>
    intro prev i dp d hp hd
    cases i with
    | zero =>
      simp at hp hd
      subst hp
      subst hd
      rfl
    | succ j =>
      simp only [List.get?] at hp hd
      simpa [deltasTail] using ih e j dp d hp hd

theorem calculateDeltas_get?_succ (f : PasoePoint → Int)
    (data : List PasoePoint) (i : Nat) (dp d : PasoePoint)
    (hp : data.get? i = some dp) (hd : data.get? (i + 1) = some d) :
    (calculateDeltas f data).get? (i + 1) = some ⟨d.time, max 0 (f d - f dp)⟩ := by
  cases data with
  | nil => simp at hp
  | cons e rest =>
    have : (deltasTail f e rest).get? i = some ⟨d.time, max 0 (f d - f dp)⟩ :=
      deltasTail_get?_value f rest e i dp d hp hd
    simpa [calculateDeltas] using this

theorem deltasTail_y_nonneg (f : PasoePoint → Int) :
    ∀ (l : List PasoePoint) (prev : PasoePoint), ∀ p ∈ deltasTail f prev l, 0 ≤ p.y := by
  intro l
  induction l with
  | nil =>
    intro prev p hp
    simp [deltasTail] at hp
  | cons d rest ih =>
    intro prev p hp
    simp only [deltasTail, List.mem_cons] at hp
    rcases hp with h | h
    · subst h
      exact le_max_left 0 _
    · exact ih d p h

/-! ## Interval inference for the PASOE stats view

updatePasoeStatsCharts (part_004 lines 1151-1160) starts from the
configured stats poll interval, in seconds, times 1000, and replaces it
by the mean of the consecutive timestamp differences of the history
whenever the history has more than one point.  Arithmetic is modelled
over the rationals, mirroring floating-point division on the exact
values involved. -/

/-- Sum of the consecutive timestamp differences of a history, folded
from a given predecessor timestamp. -/
def sumDiffsFrom (prev : Int) : List PasoePoint → Int
  | [] => 0
  | d :: rest => (d.time - prev) + sumDiffsFrom d.time rest

/-- The totalIntervals accumulator of part_004 lines 1153-1158. -/
def pasoeTotalIntervals : List PasoePoint → Int
  | [] => 0
  | d :: rest => sumDiffsFrom d.time rest

/-- The intervalMs computation of part_004 lines 1151-1160.  The
argument pasoeStatsRefreshSec is this.refreshIntervals.pasoeStats, the
configured poll interval in seconds supplied by the application shell. -/
def inferredIntervalMillis (pasoeStatsRefreshSec : ℚ)
    (history : List PasoePoint) : ℚ :=
  if 1 < history.length then
    (pasoeTotalIntervals history : ℚ) / ((history.length : ℚ) - 1)
  else pasoeStatsRefreshSec * 1000

/-! ## Charts view data model

loadChartsData (part_004 lines 423-466) keys one history per session by
the string agentId-sessionId and appends one point per observed session
per tick, coercing absent values to 0 and converting memory to MB. -/

/-- The raw per-session values read from one fetched snapshot.  Each is
a falsy-coalescing chain such as session.SessionMemory ||
session.sessionMemory || 0; on numeric-or-absent inputs that chain
coincides with getD 0 of the resolved Option value. -/
structure SessionRaw where
  sessionMemory : Option Int
  requestsCompleted : Option Int
  requestsFailed : Option Int
deriving DecidableEq, Repr

/-- One stored charts-view history point (part_004 lines 445-450). -/
structure ChartPoint where
  time : Int
  memory : ℚ
  requestsCompleted : Int
  requestsFailed : Int
deriving DecidableEq, Repr

/-- The point pushed in loadChartsData (part_004 lines 435-450):
memory is bytes divided by 1024*1024, counters default to 0. -/
def mkChartPoint (time : Int) (raw : SessionRaw) : ChartPoint :=
  { time := time
    memory := (raw.sessionMemory.getD 0 : ℚ) / (1024 * 1024)
    requestsCompleted := raw.requestsCompleted.getD 0
    requestsFailed := raw.requestsFailed.getD 0 }

/-- The chartHistoryData Map, modelled as an association list from the
session key to its history. -/
abbrev ChartHistoryMap := List (String × List ChartPoint)

/-- Map lookup: this.chartHistoryData.get(key). -/
def mapGet : ChartHistoryMap → String → Option (List ChartPoint)
  | [], _ => none
  | (k, v) :: rest, key => if k = key then some v else mapGet rest key

/-- Map insertion or replacement: this.chartHistoryData.set(key, v). -/
def mapSet : ChartHistoryMap → String → List ChartPoint → ChartHistoryMap
  | [], key, v => [(key, v)]
  | (k, w) :: rest, key, v =>
      if k = key then (key, v) :: rest else (k, w) :: mapSet rest key v

/-- One per-session ingest step of loadChartsData (part_004 lines
434-456): materialize the history on first observation, push the new
point, evict the oldest point beyond the capacity of 200. -/
def ingestSessionPoint (m : ChartHistoryMap) (key : String) (time : Int)
    (raw : SessionRaw) : ChartHistoryMap :=
  let history := (mapGet m key).getD []
  mapSet m key (boundedPush chartsCapacity history (mkChartPoint time raw))

/-- One full poll tick of the charts view: every observed
(sessionKey, values) pair of the snapshot is ingested at the shared
tick timestamp. -/
def ingestChartsSample (m : ChartHistoryMap) (time : Int)
    (obs : List (String × SessionRaw)) : ChartHistoryMap :=
  obs.foldl (fun acc ob => ingestSessionPoint acc ob.1 time ob.2) m

/-- The gauge series read: the stored history of the key, empty when
the key has never been observed. -/
def gaugeSeries (m : ChartHistoryMap) (key : String) : List ChartPoint :=
  (mapGet m key).getD []

/-- The charts map obtained by ingesting a sequence of (time, values)
observations for one fixed key, starting from the empty map. -/
def chartsAfter (key : String) (obs : List (Int × SessionRaw)) : ChartHistoryMap :=
  obs.foldl (fun m ob => ingestSessionPoint m key ob.1 ob.2) []

/-! ## Charts view pooled interval (updateCharts, part_004 lines 489-506) -/

/-- Sum of consecutive timestamp differences of one charts history. -/
def chartSumDiffsFrom (prev : Int) : List ChartPoint → Int
  | [] => 0
  | d :: rest => (d.time - prev) + chartSumDiffsFrom d.time rest

/-- The per-history contribution to totalIntervals (part_004 lines
493-502): zero for histories with fewer than two points. -/
def chartTotalIntervals : List ChartPoint → Int
  | [] => 0
  | d :: rest => chartSumDiffsFrom d.time rest

/-- The per-history contribution to intervalCount: one per consecutive
pair, i.e. length - 1 in truncated subtraction. -/
def chartPairCount (h : List ChartPoint) : Nat := h.length - 1

/-- The intervalMs computation of updateCharts (part_004 lines
489-506): pooled over the histories of every tracked session key, with
the configured charts refresh interval (seconds) times 1000 as the
fallback when no consecutive pair exists. -/
def chartsIntervalMs (chartsRefreshSec : ℚ)
    (histories : List (List ChartPoint)) : ℚ :=
  let total := (histories.map chartTotalIntervals).sum
  let count := (histories.map chartPairCount).sum
  if 0 < count then (total : ℚ) / (count : ℚ) else chartsRefreshSec * 1000

/-! ## Application state and scope reset -/

/-- The slice of the singleton application state holding the two
history stores. -/
structure AppState where
  chartHistoryData : ChartHistoryMap
  pasoeStatsHistory : List PasoePoint
deriving Repr

/-- clearPasoeStatsHistory (part_004 lines 1449-1452): the stats
history becomes empty. -/
def clearPasoeStatsHistory (s : AppState) : AppState :=
  { s with pasoeStatsHistory := [] }

/-- The history reset performed on scope switch: selectApplication
(src/unnamed/part_003 lines 819-833) runs this.chartHistoryData.clear(),
and the stats history is cleared through clearPasoeStatsHistory, whose
doc comment states it is called when switching applications (its caller
lives in the application shell file not included in this snapshot). -/
def selectApplication (s : AppState) : AppState :=
  clearPasoeStatsHistory { s with chartHistoryData := [] }

/-- The rate-series read of the stats view: calculateDeltas only reads
the history (its body is a map building fresh objects and contains no
assignment to state), so the state component of the embedded call is
the unchanged state. -/
def rateSeriesRead (s : AppState) (f : PasoePoint → Int) :
    List RatePoint × AppState :=
  (calculateDeltas f s.pasoeStatsHistory, s)

/-! ## Lemmas about the bounded push -/

theorem boundedPush_length_le {α : Type} (cap : Nat) (h : List α) (x : α)
    (hl : h.length ≤ cap) : (boundedPush cap h x).length ≤ cap := by
  unfold boundedPush
  split
  · simp only [List.length_tail, List.length_append, List.length_singleton]
    omega
  · rename_i hc
    simp only [List.length_append, List.length_singleton] at hc ⊢
    omega

theorem boundedPush_of_length_lt {α : Type} (cap : Nat) (h : List α) (x : α)
    (hl : h.length < cap) : boundedPush cap h x = h ++ [x] := by
  unfold boundedPush
  split
  · rename_i hc
    simp only [List.length_append, List.length_singleton] at hc
    omega
  · rfl

theorem boundedPush_of_length_eq {α : Type} (cap : Nat) (h : List α) (x : α)
    (hcap : 0 < cap) (hl : h.length = cap) : boundedPush cap h x = h.tail ++ [x] := by
  unfold boundedPush
  split
  · rename_i hc
    cases h with
    | nil => simp at hl; omega
    | cons a rest => simp [List.cons_append]
  · rename_i hc
    simp only [List.length_append, List.length_singleton] at hc
    omega

theorem foldl_boundedPush_eq_drop {α : Type} (cap : Nat) (vs : List α) :
    vs.foldl (boundedPush cap) [] = vs.drop (vs.length - cap) := by
  induction vs using List.reverseRecOn with
  | nil => simp
  | append_singleton vs v ih =>
    rw [List.foldl_append, List.foldl_cons, List.foldl_nil, ih]
    by_cases hlt : vs.length < cap
    · rw [Nat.sub_eq_zero_of_le (Nat.le_of_lt hlt), List.drop_zero,
        boundedPush_of_length_lt cap vs v hlt,
        Nat.sub_eq_zero_of_le (by simpa using hlt), List.drop_zero]
    · have hcap : cap ≤ vs.length := Nat.le_of_not_lt hlt
      have hdlen : (vs.drop (vs.length - cap)).length = cap := by
        simp [List.length_drop]
        omega
      by_cases hzero : cap = 0
      · subst hzero
        have h1 : vs.drop (vs.length - 0) = [] := by
          simp [List.drop_eq_nil_iff]
        have h2 : (vs ++ [v]).drop ((vs ++ [v]).length - 0) = [] := by
          simp [List.drop_eq_nil_iff]
        rw [h1, h2]
        rfl
      · have hpos : 0 < cap := Nat.pos_of_ne_zero hzero
        rw [boundedPush_of_length_eq cap _ v hpos hdlen]
        have htail : (vs.drop (vs.length - cap)).tail = vs.drop (vs.length - cap + 1) := by
          rw [List.tail_drop]
        rw [htail]
        have hle : (vs ++ [v]).length - cap ≤ vs.length := by
          simp only [List.length_append, List.length_singleton]
          omega
        rw [List.drop_append_of_le_length hle]
        have harith : (vs ++ [v]).length - cap = vs.length - cap + 1 := by
          simp only [List.length_append, List.length_singleton]
          omega
        rw [harith]

theorem length_foldl_boundedPush_le {α : Type} (cap : Nat) (vs : List α) :
    (vs.foldl (boundedPush cap) []).length ≤ cap := by
  rw [foldl_boundedPush_eq_drop]
  simp [List.length_drop]
  omega

theorem mem_boundedPush {α : Type} (cap : Nat) (h : List α) (x p : α)
    (hp : p ∈ boundedPush cap h x) : p ∈ h ∨ p = x := by
  unfold boundedPush at hp
  split at hp
  · have := List.mem_of_mem_tail hp
    simpa using this
  · simpa using hp

/-! ## Lemmas about the history map -/

theorem mapGet_mapSet_self (m : ChartHistoryMap) (key : String)
    (v : List ChartPoint) : mapGet (mapSet m key v) key = some v := by
  induction m with
  | nil => simp [mapSet, mapGet]
  | cons e rest ih =>
    obtain ⟨k, w⟩ := e
    by_cases hk : k = key
    · subst hk
      simp [mapSet, mapGet]
    · simp [mapSet, mapGet, hk, ih]

theorem mapGet_mapSet_other (m : ChartHistoryMap) (key key2 : String)
    (v : List ChartPoint) (hne : key2 ≠ key) :
    mapGet (mapSet m key v) key2 = mapGet m key2 := by
  induction m with
  | nil => simp [mapSet, mapGet, Ne.symm hne]
  | cons e rest ih =>
    obtain ⟨k, w⟩ := e
    by_cases hk : k = key
    · subst hk
      simp [mapSet, mapGet, Ne.symm hne]
    · by_cases hk2 : k = key2
      · subst hk2
        simp [mapSet, mapGet, hk]
      · simp [mapSet, mapGet, hk, hk2, ih]

theorem gaugeSeries_ingestSessionPoint_self (m : ChartHistoryMap) (key : String)
    (time : Int) (raw : SessionRaw) :
    gaugeSeries (ingestSessionPoint m key time raw) key
      = boundedPush chartsCapacity (gaugeSeries m key) (mkChartPoint time raw) := by
  simp [gaugeSeries, ingestSessionPoint, mapGet_mapSet_self]

theorem gaugeSeries_foldl_ingest (key : String) :
    ∀ (obs : List (Int × SessionRaw)) (m : ChartHistoryMap),
      gaugeSeries (obs.foldl (fun m2 ob => ingestSessionPoint m2 key ob.1 ob.2) m) key
        = (obs.map fun ob => mkChartPoint ob.1 ob.2).foldl
            (boundedPush chartsCapacity) (gaugeSeries m key) := by
  intro obs
  induction obs with
  | nil => intro m; rfl
  | cons ob rest ih =>
    intro m
    simp only [List.foldl_cons, List.map_cons]
    rw [ih, gaugeSeries_ingestSessionPoint_self]

theorem gaugeSeries_chartsAfter (key : String) (obs : List (Int × SessionRaw)) :
    gaugeSeries (chartsAfter key obs) key
      = (obs.map fun ob => mkChartPoint ob.1 ob.2).foldl
          (boundedPush chartsCapacity) [] := by
  unfold chartsAfter
  rw [gaugeSeries_foldl_ingest]
  rfl

theorem mapGet_ingestChartsSample_not_mem (time : Int) :
    ∀ (obs : List (String × SessionRaw)) (m : ChartHistoryMap) (key : String),
      key ∉ obs.map Prod.fst →
      mapGet (ingestChartsSample m time obs) key = mapGet m key := by
  intro obs
  induction obs with
  | nil => intro m key _; rfl
  | cons ob rest ih =>
    intro m key hk
    simp only [List.map_cons, List.mem_cons, not_or] at hk
    have step : mapGet (ingestSessionPoint m ob.1 time ob.2) key = mapGet m key := by
      simp [ingestSessionPoint, mapGet_mapSet_other _ _ _ _ hk.1]
    calc mapGet (ingestChartsSample m time (ob :: rest)) key
        = mapGet (ingestChartsSample (ingestSessionPoint m ob.1 time ob.2) time rest) key := rfl
      _ = mapGet (ingestSessionPoint m ob.1 time ob.2) key := ih _ key hk.2
      _ = mapGet m key := step

theorem mem_foldl_ingestPasoe :
    ∀ (samples : List PasoeSample) (init : List PasoePoint) (p : PasoePoint),
      p ∈ samples.foldl ingestPasoeSample init →
      p ∈ init ∨ ∃ s ∈ samples, p = mkDataPoint s := by
  intro samples
  induction samples with
  | nil =>
    intro init p hp
    exact Or.inl hp
  | cons s rest ih =>
    intro init p hp
    simp only [List.foldl_cons] at hp
    rcases ih _ p hp with h | h
    · rcases mem_boundedPush _ _ _ _ h with h2 | h2
      · exact Or.inl h2
      · exact Or.inr ⟨s, by simp, h2⟩
    · rcases h with ⟨t, ht, hpt⟩
      exact Or.inr ⟨t, by simp [ht], hpt⟩

theorem pasoeHistoryAfter_eq_foldl (samples : List PasoeSample) :
    pasoeHistoryAfter samples
      = (samples.map mkDataPoint).foldl (boundedPush pasoeStatsCapacity) [] := by
  have hgen : ∀ (ss : List PasoeSample) (init : List PasoePoint),
      ss.foldl ingestPasoeSample init
        = (ss.map mkDataPoint).foldl (boundedPush pasoeStatsCapacity) init := by
    intro ss
    induction ss with
    | nil => intro init; rfl
    | cons s rest ih =>
      intro init
      simp [List.foldl_cons, ingestPasoeSample, ih]
  exact hgen samples []

/-! ## Concrete points and samples for instances -/

/-- A stats point with a given timestamp and requests value, every
other field zero. -/
def gaugePt (t v : Int) : PasoePoint :=
  { time := t, memoryUsed := 0, currConnections := 0, maxConnections := 0
    requests := v, timeouts := 0, waits := 0, reads := 0, readErrors := 0
    writes := 0, writeErrors := 0, idleSessions := 0, busySessions := 0
    stoppingAgents := 0 }

/-- A charts point with a given timestamp, every other field zero. -/
def cpt (t : Int) : ChartPoint :=
  { time := t, memory := 0, requestsCompleted := 0, requestsFailed := 0 }

/-- A raw metrics object with every field absent. -/
def emptyMetrics : RawMetrics :=
  { concurrentConnectedClients := none, maxConcurrentClients := none
    requests := none, numReserveABLSessionTimeouts := none
    numReserveABLSessionWaits := none, reads := none, readErrors := none
    writes := none, writeErrors := none }

/-- A stats sample at a given time whose requests metric is the given
optional value and whose other metrics are all absent. -/
def sampleReq (t : Int) (v : Option Int) : PasoeSample :=
  { time := t, totalMemory := 0, idleSessions := 0, busySessions := 0
    stoppingAgents := 0, metrics := { emptyMetrics with requests := v } }

/-- A raw session observation with every value absent. -/
def rawZero : SessionRaw :=
  { sessionMemory := none, requestsCompleted := none, requestsFailed := none }

/-- A concrete session key. -/
def keyA : String := String.mk ['a']

/-- A second concrete session key. -/
def keyB : String := String.mk ['b']

/-! ## Claim theorems -/

/-- Claim C1: for every history, the rate series is index-aligned with
the gauge series (same length, same timestamps), the point at index 0
has value 0 at the first timestamp, every later index whose delta of
the selected field is non-negative carries exactly that delta, and
gauge inputs 10, 15, 15, 22 at four ticks yield rate values
0, 5, 0, 7. -/
theorem rate_series_aligned_exact (f : PasoePoint → Int) (data : List PasoePoint) :
    (calculateDeltas f data).length = data.length
    ∧ (∀ i : Nat, ((calculateDeltas f data).get? i).map RatePoint.x
        = (data.get? i).map PasoePoint.time)
    ∧ (∀ d rest, data = d :: rest →
        (calculateDeltas f data).get? 0 = some ⟨d.time, 0⟩)
    ∧ (∀ i dp d, data.get? i = some dp → data.get? (i + 1) = some d →
        f dp ≤ f d →
        (calculateDeltas f data).get? (i + 1) = some ⟨d.time, f d - f dp⟩)
    ∧ (∀ t0 t1 t2 t3 : Int,
        calculateDeltas PasoePoint.requests
            [gaugePt t0 10, gaugePt t1 15, gaugePt t2 15, gaugePt t3 22]
          = [⟨t0, 0⟩, ⟨t1, 5⟩, ⟨t2, 0⟩, ⟨t3, 7⟩]) := by
  refine ⟨calculateDeltas_length f data, calculateDeltas_get?_x f data, ?_, ?_, ?_⟩
  · intro d rest h
    subst h
    rfl
  · intro i dp d hp hd hle
    have h := calculateDeltas_get?_succ f data i dp d hp hd
    rwa [max_eq_right (sub_nonneg.mpr hle)] at h
  · intro t0 t1 t2 t3
    simp [calculateDeltas, deltasTail, gaugePt]

/-- Witness for C1 at concrete gauge inputs 10, 15. -/
theorem rate_series_aligned_exact_witness :
    (calculateDeltas PasoePoint.requests [gaugePt 0 10, gaugePt 1 15]).get? 1
      = some ⟨1, 5⟩ := by
  have h := (rate_series_aligned_exact PasoePoint.requests
    [gaugePt 0 10, gaugePt 1 15]).2.2.2.1 0 (gaugePt 0 10) (gaugePt 1 15)
    (by decide) (by decide) (by decide)
  simpa [gaugePt] using h

/-- Claim C2: every rate-series value is non-negative: a negative delta
(counter reset) is clamped to 0, and gauge inputs 100, 40 yield rate
values 0, 0 rather than 0, -60. -/
theorem rate_series_nonneg (f : PasoePoint → Int) (data : List PasoePoint) :
    (∀ p ∈ calculateDeltas f data, 0 ≤ p.y)
    ∧ (∀ t0 t1 : Int,
        calculateDeltas PasoePoint.requests [gaugePt t0 100, gaugePt t1 40]
          = [⟨t0, 0⟩, ⟨t1, 0⟩]) := by
  constructor
  · intro p hp
    cases data with
    | nil => simp [calculateDeltas] at hp
    | cons d rest =>
      simp only [calculateDeltas, List.mem_cons] at hp
      rcases hp with h | h
      · subst h
        exact le_refl 0
      · exact deltasTail_y_nonneg f rest d p h
  · intro t0 t1
    simp [calculateDeltas, deltasTail, gaugePt]

/-- Witness for C2 at a concrete emitted point of the reset example. -/
theorem rate_series_nonneg_witness :
    0 ≤ (RatePoint.mk 1 0).y := by
  exact (rate_series_nonneg PasoePoint.requests
    [gaugePt 0 100, gaugePt 1 40]).1 ⟨1, 0⟩ (by decide)

/-- Claim C3: a history filled by any sequence of ingests for one key
never exceeds the configured capacity, the surviving points are exactly
the most recent ones in their original chronological order (FIFO: the
state after any number of ingests is the suffix of the pushed sequence
of length at most the capacity), a push into a full history evicts
exactly the oldest point, and the two stores honour their configured
capacities of 200 and 500. -/
theorem history_capacity_fifo (cap : Nat) (vs : List ChartPoint) :
    (vs.foldl (boundedPush cap) []).length ≤ cap
    ∧ vs.foldl (boundedPush cap) [] = vs.drop (vs.length - cap)
    ∧ (0 < cap → ∀ (h : List ChartPoint) (x : ChartPoint), h.length = cap →
        boundedPush cap h x = h.tail ++ [x])
    ∧ (∀ (key : String) (obs : List (Int × SessionRaw)),
        gaugeSeries (chartsAfter key obs) key
            = (obs.map fun ob => mkChartPoint ob.1 ob.2).drop
                (obs.length - chartsCapacity)
          ∧ (gaugeSeries (chartsAfter key obs) key).length ≤ chartsCapacity)
    ∧ (∀ samples : List PasoeSample,
        (pasoeHistoryAfter samples).length ≤ pasoeStatsCapacity) := by
  refine ⟨length_foldl_boundedPush_le cap vs, foldl_boundedPush_eq_drop cap vs,
    ?_, ?_, ?_⟩
  · intro hcap h x hl
    exact boundedPush_of_length_eq cap h x hcap hl
  · intro key obs
    rw [gaugeSeries_chartsAfter]
    refine ⟨?_, length_foldl_boundedPush_le _ _⟩
    rw [foldl_boundedPush_eq_drop]
    simp [List.length_map]
  · intro samples
    rw [pasoeHistoryAfter_eq_foldl]
    exact length_foldl_boundedPush_le _ _

/-- Witness for C3: with capacity 2, a third push evicts the oldest
point. -/
theorem history_capacity_fifo_witness :
    boundedPush 2 [cpt 0, cpt 1] (cpt 2) = [cpt 1, cpt 2] := by
  have h := (history_capacity_fifo 2 []).2.2.1 (by decide)
    [cpt 0, cpt 1] (cpt 2) (by decide)
  simpa using h

/-- Counterexample to claim C4: ingesting a sample whose requests
metric is 5 at tick 1 and a sample whose requests metric is absent at
tick 2, the rate series still emits a point for the (1,2) tick pair:
the absent value was coerced to 0 at ingestion and the clamped delta
max(0, 0 - 5) = 0 is emitted, rather than the pair being skipped. -/
theorem missing_metric_skip_cex :
    pasoeHistoryAfter [sampleReq 1 (some 5), sampleReq 2 none]
        = [mkDataPoint (sampleReq 1 (some 5)), mkDataPoint (sampleReq 2 none)]
    ∧ calculateDeltas PasoePoint.requests
        (pasoeHistoryAfter [sampleReq 1 (some 5), sampleReq 2 none])
        = [⟨1, 0⟩, ⟨2, 0⟩]
    ∧ (calculateDeltas PasoePoint.requests
        (pasoeHistoryAfter [sampleReq 1 (some 5), sampleReq 2 none])).get? 1
        ≠ none := by
  refine ⟨?_, ?_, ?_⟩ <;> decide

/-- Claim C4 (amended): an absent metric value is coerced to 0 at
ingestion and the rate series emits one point per gauge point: a metric
present with non-negative value at tick 1 and absent at tick 2 produces
a rate point for the (1,2) pair with clamped value 0, indistinguishable
from an explicit 0 observation, and the rate series always has the same
length as the gauge series. -/
theorem missing_metric_coerced (s1 s2 : PasoeSample) (v : Int)
    (h1 : s1.metrics.requests = some v) (hv : 0 ≤ v)
    (h2 : s2.metrics.requests = none) :
    calculateDeltas PasoePoint.requests [mkDataPoint s1, mkDataPoint s2]
      = [⟨s1.time, 0⟩, ⟨s2.time, 0⟩]
    ∧ (∀ (f : PasoePoint → Int) (data : List PasoePoint),
        (calculateDeltas f data).length = data.length) := by
  refine ⟨?_, calculateDeltas_length⟩
  simp [calculateDeltas, deltasTail, mkDataPoint, h1, h2]
  exact hv

/-- Witness for C4 (amended) at concrete samples. -/
theorem missing_metric_coerced_witness :
    calculateDeltas PasoePoint.requests
        [mkDataPoint (sampleReq 1 (some 5)), mkDataPoint (sampleReq 2 none)]
      = [⟨1, 0⟩, ⟨2, 0⟩] := by
  have h := (missing_metric_coerced (sampleReq 1 (some 5)) (sampleReq 2 none) 5
    (by decide) (by decide) (by decide)).1
  simpa [sampleReq] using h

/-- Claim C5: the inferred interval is the mean of the consecutive
timestamp differences across the whole history; with fewer than two
points it is the caller-supplied configured poll interval in
milliseconds, which is non-zero whenever the configured interval is
positive; samples at 0, 1000, 3000 milliseconds give 1500. -/
theorem inferred_interval_spec (defaultSec : ℚ) (history : List PasoePoint) :
    (history.length < 2 →
        inferredIntervalMillis defaultSec history = defaultSec * 1000)
    ∧ (0 < defaultSec → history.length < 2 →
        inferredIntervalMillis defaultSec history ≠ 0)
    ∧ (2 ≤ history.length →
        inferredIntervalMillis defaultSec history
          = (pasoeTotalIntervals history : ℚ) / ((history.length : ℚ) - 1))
    ∧ (∀ p0 p1 p2 : PasoePoint, p0.time = 0 → p1.time = 1000 → p2.time = 3000 →
        inferredIntervalMillis defaultSec [p0, p1, p2] = 1500) := by
  have hdef : history.length < 2 →
      inferredIntervalMillis defaultSec history = defaultSec * 1000 := by
    intro hl
    unfold inferredIntervalMillis
    rw [if_neg (by omega)]
  refine ⟨hdef, ?_, ?_, ?_⟩
  · intro hpos hl
    rw [hdef hl]
    positivity
  · intro hl
    unfold inferredIntervalMillis
    rw [if_pos (by omega)]
  · intro p0 p1 p2 h0 h1 h2
    unfold inferredIntervalMillis
    rw [if_pos (by simp)]
    simp [pasoeTotalIntervals, sumDiffsFrom, h0, h1, h2]
    norm_num

/-- Witness for C5: the fallback at an empty history and the mean at
three concrete samples. -/
theorem inferred_interval_spec_witness :
    inferredIntervalMillis 10 ([] : List PasoePoint) = 10000
    ∧ inferredIntervalMillis 10 [gaugePt 0 0, gaugePt 1000 0, gaugePt 3000 0]
        = 1500 := by
  constructor
  · have h := (inferred_interval_spec 10 ([] : List PasoePoint)).1 (by decide)
    rw [h]
    norm_num
  · exact (inferred_interval_spec 10 ([] : List PasoePoint)).2.2.2
      (gaugePt 0 0) (gaugePt 1000 0) (gaugePt 3000 0) rfl rfl rfl

/-- Claim C6: a scope switch discards all histories in one step: after
ingests have populated two or more distinct keys, every key reads back
an empty gauge series after the reset, and the stats history and its
rate series are empty as well. -/
theorem reset_clears_all_histories (s : AppState) (k1 k2 : String)
    (_hk : k1 ≠ k2)
    (_h1 : gaugeSeries s.chartHistoryData k1 ≠ [])
    (_h2 : gaugeSeries s.chartHistoryData k2 ≠ []) :
    (∀ key : String, gaugeSeries (selectApplication s).chartHistoryData key = [])
    ∧ (selectApplication s).pasoeStatsHistory = []
    ∧ (∀ f : PasoePoint → Int,
        calculateDeltas f (selectApplication s).pasoeStatsHistory = []) := by
  exact ⟨fun key => rfl, rfl, fun f => rfl⟩

/-- Witness for C6 at a state with two populated keys. -/
theorem reset_clears_all_histories_witness :
    gaugeSeries (selectApplication
        ⟨[(keyA, [cpt 0]), (keyB, [cpt 1])], [gaugePt 0 0]⟩).chartHistoryData
      keyA = [] := by
  exact (reset_clears_all_histories
    ⟨[(keyA, [cpt 0]), (keyB, [cpt 1])], [gaugePt 0 0]⟩ keyA keyB
    (by decide) (by decide) (by decide)).1 keyA

/-- Claim C7: the rate series is a pure read of the current history:
the call leaves the state unchanged, an immediate second call returns
the identical sequence, and the output depends only on the history
contents. -/
theorem rate_series_pure (s : AppState) (f : PasoePoint → Int) :
    (rateSeriesRead s f).2 = s
    ∧ (rateSeriesRead ((rateSeriesRead s f).2) f).1 = (rateSeriesRead s f).1
    ∧ (∀ s2 : AppState, s2.pasoeStatsHistory = s.pasoeStatsHistory →
        (rateSeriesRead s2 f).1 = (rateSeriesRead s f).1) := by
  refine ⟨rfl, rfl, ?_⟩
  intro s2 h
  simp [rateSeriesRead, h]

/-- Witness for C7: two states with the same stats history but
different chart stores produce the identical rate sequence. -/
theorem rate_series_pure_witness :
    (rateSeriesRead ⟨[(keyA, [cpt 0])], [gaugePt 0 1]⟩ PasoePoint.requests).1
      = (rateSeriesRead ⟨[], [gaugePt 0 1]⟩ PasoePoint.requests).1 := by
  exact (rate_series_pure ⟨[], [gaugePt 0 1]⟩ PasoePoint.requests).2.2
    ⟨[(keyA, [cpt 0])], [gaugePt 0 1]⟩ rfl

/-- Claim C8: reading a never-ingested key is not an error and yields
the empty sequence, ingesting a sample that does not observe the key
materializes no entry for it, and the rate read of an empty history is
empty as well. -/
theorem unseen_key_lazy (m : ChartHistoryMap) (key : String)
    (hk : mapGet m key = none) :
    gaugeSeries m key = []
    ∧ (∀ (time : Int) (obs : List (String × SessionRaw)),
        key ∉ obs.map Prod.fst →
        mapGet (ingestChartsSample m time obs) key = none)
    ∧ (∀ f : PasoePoint → Int, calculateDeltas f [] = []) := by
  refine ⟨?_, ?_, fun f => rfl⟩
  · simp [gaugeSeries, hk]
  · intro time obs hobs
    rw [mapGet_ingestChartsSample_not_mem time obs m key hobs, hk]

/-- Witness for C8 at a concrete store and key. -/
theorem unseen_key_lazy_witness :
    gaugeSeries [(keyA, [cpt 0])] keyB = []
    ∧ mapGet (ingestChartsSample [(keyA, [cpt 0])] 5 [(keyA, rawZero)]) keyB
        = none := by
  have h := unseen_key_lazy [(keyA, [cpt 0])] keyB (by decide)
  exact ⟨h.1, h.2.1 5 [(keyA, rawZero)] (by decide)⟩

/-- Claim C9: every stored point carries a concrete numeric value for
every field: every point of a stats history reachable by ingestion is
the coercion image of one of the ingested samples, and in both
ingestion paths a field absent from the fetched snapshot is stored
as 0. -/
theorem ingested_points_numeric (samples : List PasoeSample) :
    (∀ p ∈ pasoeHistoryAfter samples, ∃ s ∈ samples, p = mkDataPoint s)
    ∧ (∀ s : PasoeSample,
        (s.metrics.concurrentConnectedClients = none →
          (mkDataPoint s).currConnections = 0)
        ∧ (s.metrics.maxConcurrentClients = none →
          (mkDataPoint s).maxConnections = 0)
        ∧ (s.metrics.requests = none → (mkDataPoint s).requests = 0)
        ∧ (s.metrics.numReserveABLSessionTimeouts = none →
          (mkDataPoint s).timeouts = 0)
        ∧ (s.metrics.numReserveABLSessionWaits = none →
          (mkDataPoint s).waits = 0)
        ∧ (s.metrics.reads = none → (mkDataPoint s).reads = 0)
        ∧ (s.metrics.readErrors = none → (mkDataPoint s).readErrors = 0)
        ∧ (s.metrics.writes = none → (mkDataPoint s).writes = 0)
        ∧ (s.metrics.writeErrors = none → (mkDataPoint s).writeErrors = 0))
    ∧ (∀ (t : Int) (raw : SessionRaw),
        (raw.sessionMemory = none → (mkChartPoint t raw).memory = 0)
        ∧ (raw.requestsCompleted = none →
          (mkChartPoint t raw).requestsCompleted = 0)
        ∧ (raw.requestsFailed = none → (mkChartPoint t raw).requestsFailed = 0)) := by
  refine ⟨?_, ?_, ?_⟩
  · intro p hp
    rcases mem_foldl_ingestPasoe samples [] p hp with h | h
    · simp at h
    · exact h
  · intro s
    refine ⟨?_, ?_, ?_, ?_, ?_, ?_, ?_, ?_, ?_⟩ <;>
      (intro h; simp [mkDataPoint, h])
  · intro t raw
    refine ⟨?_, ?_, ?_⟩ <;> (intro h; simp [mkChartPoint, h])

/-- Witness for C9: a sample with an absent requests metric is stored
with requests 0. -/
theorem ingested_points_numeric_witness :
    (mkDataPoint (sampleReq 7 none)).requests = 0 := by
  exact ((ingested_points_numeric []).2.1 (sampleReq 7 none)).2.2.1 (by decide)

/-- Claim C10: the charts-view window interval is pooled over every
tracked session history, the sum of all consecutive timestamp
differences divided by the total number of consecutive pairs, with the
configured charts refresh interval in milliseconds as the fallback when
no history has two or more points; two histories of cadences 1000 and
2000 milliseconds pool to 5000/3, not to either per-key mean. -/
theorem charts_interval_pooled (d : ℚ) (histories : List (List ChartPoint)) :
    ((∀ h ∈ histories, h.length ≤ 1) → chartsIntervalMs d histories = d * 1000)
    ∧ ((∃ h ∈ histories, 1 < h.length) →
        chartsIntervalMs d histories
          = ((histories.map chartTotalIntervals).sum : ℚ)
            / (((histories.map chartPairCount).sum : Nat) : ℚ))
    ∧ chartsIntervalMs d [[cpt 0, cpt 1000], [cpt 0, cpt 2000, cpt 4000]]
        = 5000 / 3 := by
  refine ⟨?_, ?_, ?_⟩
  · intro hall
    have hcount : (histories.map chartPairCount).sum = 0 := by
      apply List.sum_eq_zero
      intro n hn
      rcases List.mem_map.mp hn with ⟨h, hmem, hrfl⟩
      have := hall h hmem
      simp [chartPairCount] at hrfl ⊢
      omega
    unfold chartsIntervalMs
    rw [hcount]
    rfl
  · rintro ⟨h, hmem, hlen⟩
    have hpos : 0 < (histories.map chartPairCount).sum := by
      have hle : chartPairCount h ≤ (histories.map chartPairCount).sum :=
        List.single_le_sum (fun n _ => Nat.zero_le n) _
          (List.mem_map_of_mem chartPairCount hmem)
      have : 0 < chartPairCount h := by
        simp [chartPairCount]
        omega
      omega
    unfold chartsIntervalMs
    rw [if_pos hpos]
  · unfold chartsIntervalMs
    norm_num [chartTotalIntervals, chartSumDiffsFrom, chartPairCount, cpt]

/-- Witness for C10: the fallback with no histories. -/
theorem charts_interval_pooled_witness :
    chartsIntervalMs 10 ([] : List (List ChartPoint)) = 10000 := by
  have h := (charts_interval_pooled 10 ([] : List (List ChartPoint))).1 (by simp)
  rw [h]
  norm_num

end OeManagerGui
